import Mathlib

/-
Verification development for the screen-state detection and macro-execution
engine of the Android-connect repository.

The detector (screen_detector.py) and the macro engine (screen_macros.py)
are shallowly embedded: OpenCV image I/O and the normalized cross-correlation
search are abstracted into an oracle structure `CV` (image loading, template
resizing and the maximum of `cv2.matchTemplate` + `cv2.minMaxLoc`), device
I/O (adb commands, sleeps) into the oracle structure `TextEnv` and an abstract
step executor; Python floats are modelled by `ℚ`, Python `int()` truncation
of nonnegative values by `Rat.floor`/`toNat`, and fallible calls by `Option`.
-/

namespace SC

/- Core `Rat` arithmetic is `@[irreducible]` in this toolchain, which
blocks `decide` on concrete rational computations; restore the default
reducibility inside this development. -/
attribute [local semireducible] Rat.mul Rat.inv Rat.add Rat.sub

/-- A decoded image as `cv2.imread` returns it: a pixel array with a shape
`(height, width)`; the pixel payload is abstracted into an opaque tag so
that distinct files can decode to distinct images. Grayscale conversion
(`cv2.cvtColor`) preserves the shape and is folded into the matching
oracle. -/
structure Img where
  h : Nat
  w : Nat
  pix : Nat
deriving DecidableEq, Repr

/-- The oracle for the OpenCV primitives used by screen_detector.py:
`imread` (None on unreadable files), `resize` (arguments: template, new
width, new height, as in `cv2.resize(template, (new_w, new_h))`) and
`tmMax`, the value and location of the maximum of
`cv2.minMaxLoc(cv2.matchTemplate(screenshot_gray, template_gray,
TM_CCOEFF_NORMED))` — a total function of the two images; its value may be
negative, as TM_CCOEFF_NORMED ranges over [-1, 1]. -/
structure CV where
  imread : String → Option Img
  resize : Img → Nat → Nat → Img
  tmMax : Img → Img → ℚ × Int × Int

/-- The `location` dictionary of a match result. -/
structure MatchLoc where
  x : Int
  y : Int
  width : Nat
  height : Nat
deriving DecidableEq, Repr

/-- The dictionary returned by the template-matching functions.  In the
single-scale non-match case the Python dict carries no `location` key,
modelled by `none`. -/
structure MatchResult where
  confidence : ℚ
  location : Option MatchLoc
  matched : Bool
  scale : ℚ
deriving DecidableEq, Repr

/-- `new_h = int(template_h * scale)`: Python `int()` truncation of a
nonnegative float, i.e. the floor. -/
def scaledH (templ : Img) (s : ℚ) : Nat := (((templ.h : ℚ) * s).floor).toNat

/-- `new_w = int(template_w * scale)`. -/
def scaledW (templ : Img) (s : ℚ) : Nat := (((templ.w : ℚ) * s).floor).toNat

/-- The skip test of the multi-scale loop:
`new_h > screenshot.shape[0] or new_w > screenshot.shape[1]`. -/
def scaleSkipped (shot templ : Img) (s : ℚ) : Bool :=
  decide (shot.h < scaledH templ s) || decide (shot.w < scaledW templ s)

/-- The confidence (`max_val`) the matching oracle reports for the template
resized to scale `s` against the screenshot. -/
def confAt (cv : CV) (shot templ : Img) (s : ℚ) : ℚ :=
  (cv.tmMax shot (cv.resize templ (scaledW templ s) (scaledH templ s))).1

/-- The x coordinate (`max_loc[0]`) reported at scale `s`. -/
def locXAt (cv : CV) (shot templ : Img) (s : ℚ) : Int :=
  (cv.tmMax shot (cv.resize templ (scaledW templ s) (scaledH templ s))).2.1

/-- The y coordinate (`max_loc[1]`) reported at scale `s`. -/
def locYAt (cv : CV) (shot templ : Img) (s : ℚ) : Int :=
  (cv.tmMax shot (cv.resize templ (scaledW templ s) (scaledH templ s))).2.2

/-- The match dictionary the multi-scale loop builds when scale `s` becomes
the current best. -/
def msAcc (cv : CV) (shot templ : Img) (thr s : ℚ) : MatchResult :=
  { confidence := confAt cv shot templ s
    location := some { x := locXAt cv shot templ s, y := locYAt cv shot templ s,
                       width := scaledW templ s, height := scaledH templ s }
    matched := decide (thr ≤ confAt cv shot templ s)
    scale := s }

/-- The `for scale in scales` loop of `match_template_multiscale`, carrying
the `best_match`/`best_confidence` accumulators.  A scale whose truncated
dimensions exceed the screenshot is skipped (`continue`); a surviving scale
with a zero truncated dimension makes `cv2.resize` raise, the exception is
caught at the top of the function and `None` is returned, modelled by the
loop answering `none` outright. -/
def msLoop (cv : CV) (shot templ : Img) (thr : ℚ) :
    List ℚ → Option MatchResult → ℚ → Option MatchResult
  | [], best, _ => best
  | s :: rest, best, bestConf =>
    if scaleSkipped shot templ s then msLoop cv shot templ thr rest best bestConf
    else if scaledH templ s = 0 ∨ scaledW templ s = 0 then none
    else if bestConf < confAt cv shot templ s then
      msLoop cv shot templ thr rest (some (msAcc cv shot templ thr s)) (confAt cv shot templ s)
    else msLoop cv shot templ thr rest best bestConf

/-- The default scale list `[0.8, 0.9, 1.0, 1.1, 1.2]`. -/
def defaultScales : List ℚ := [mkRat 8 10, mkRat 9 10, 1, mkRat 11 10, mkRat 12 10]

/-- `match_template_multiscale(screenshot_path, template_path, threshold)`
with the default scale list (all repository callers pass `scales=None`). -/
def match_template_multiscale (cv : CV) (screenshot_path template_path : String)
    (threshold : ℚ) : Option MatchResult :=
  match cv.imread screenshot_path, cv.imread template_path with
  | some shot, some templ => msLoop cv shot templ threshold defaultScales none 0
  | _, _ => none

/-- `match_template(screenshot_path, template_path, threshold)`: the
single-scale variant.  `cv2.matchTemplate` raises when the template exceeds
the screenshot in a dimension or is empty; the exception is caught and
`None` returned. -/
def match_template (cv : CV) (screenshot_path template_path : String)
    (threshold : ℚ) : Option MatchResult :=
  match cv.imread screenshot_path, cv.imread template_path with
  | some shot, some templ =>
    if shot.h < templ.h ∨ shot.w < templ.w then none
    else if templ.h = 0 ∨ templ.w = 0 then none
    else
      let mv := (cv.tmMax shot templ).1
      if threshold ≤ mv then
        some { confidence := mv
               location := some { x := (cv.tmMax shot templ).2.1, y := (cv.tmMax shot templ).2.2,
                                  width := templ.w, height := templ.h }
               matched := true, scale := 1 }
      else some { confidence := mv, location := none, matched := false, scale := 1 }
  | _, _ => none

/-- A template row as `load_templates_from_db` materialises it (`filename`
is only used to build `path`, so it is omitted). -/
structure Template where
  id : Nat
  name : String
  path : String
  threshold : ℚ
  priority : Int
deriving DecidableEq, Repr

/-- An element of the `matches` candidate list of `detect_current_screen`. -/
structure Candidate where
  template_id : Nat
  template_name : String
  confidence : ℚ
  location : Option MatchLoc
  priority : Int
  scale : ℚ
deriving DecidableEq, Repr

/-- `(priority, confidence)` of `b` is lexicographically at most that of
`a`: the descending sort key `key=lambda x: (x['priority'], x['confidence'])`
with `reverse=True` places `a` no later than `b` exactly when this holds. -/
def candGE (a b : Candidate) : Prop :=
  b.priority < a.priority ∨ (b.priority = a.priority ∧ b.confidence ≤ a.confidence)

instance candGE.decidable : ∀ a b : Candidate, Decidable (candGE a b) := fun a b => by
  unfold candGE; infer_instance

/-- Insertion into a list sorted descending by `(priority, confidence)`;
ties keep the earlier element first, as Python's stable sort does. -/
def insertByKey (c : Candidate) : List Candidate → List Candidate
  | [] => [c]
  | d :: ds => if candGE c d then c :: d :: ds else d :: insertByKey c ds

/-- `matches.sort(key=lambda x: (x['priority'], x['confidence']),
reverse=True)`: a stable sort, descending by the lexicographic key. -/
def sortMatches : List Candidate → List Candidate
  | [] => []
  | c :: cs => insertByKey c (sortMatches cs)

/-- The result dictionary of `detect_current_screen`; keys missing from the
Python dict are `none`. -/
structure DetectOutcome where
  success : Bool
  error : Option String := none
  screen : Option String := none
  template_id : Option Nat := none
  confidence : Option ℚ := none
  location : Option MatchLoc := none
  scale : Option ℚ := none
  all_matches : Option (List Candidate) := none
  message : Option String := none
deriving DecidableEq, Repr

/-- One iteration of the template loop of `detect_current_screen`: compute
the effective threshold (`threshold if threshold is not None else
template['threshold']`), run the chosen matcher, and keep the template as a
candidate exactly when a result came back with `matched` true. -/
def evalTemplate (cv : CV) (screenshot_path : String) (threshold : Option ℚ)
    (use_multiscale : Bool) (t : Template) : Option Candidate :=
  let thr := threshold.getD t.threshold
  let mr := if use_multiscale then match_template_multiscale cv screenshot_path t.path thr
            else match_template cv screenshot_path t.path thr
  match mr with
  | some r =>
    if r.matched then
      some { template_id := t.id, template_name := t.name, confidence := r.confidence,
             location := r.location, priority := t.priority, scale := r.scale }
    else none
  | none => none

/-- The `matches` list accumulated by the template loop, in template order. -/
def candidatesOf (cv : CV) (templates : List Template) (screenshot_path : String)
    (threshold : Option ℚ) (use_multiscale : Bool) : List Candidate :=
  templates.filterMap (evalTemplate cv screenshot_path threshold use_multiscale)

/-- `detect_current_screen(screenshot_path, threshold, use_multiscale)`,
parameterised by the template list that `load_templates_from_db()` returns
(the spec contract passes the store's list explicitly).  The body never
raises, so the final `except` branch of the Python function is dead. -/
def detect_current_screen (cv : CV) (templates : List Template)
    (screenshot_path : String) (threshold : Option ℚ) (use_multiscale : Bool) :
    DetectOutcome :=
  if templates.isEmpty then
    { success := false, error := some "No templates available" }
  else
    match sortMatches (candidatesOf cv templates screenshot_path threshold use_multiscale) with
    | best :: rest =>
      { success := true
        screen := some best.template_name
        template_id := some best.template_id
        confidence := some best.confidence
        location := best.location
        scale := some best.scale
        all_matches := some (best :: rest) }
    | [] => { success := true, screen := none, message := some "No matching screen detected" }

/-- The apostrophe character, spelled by code point to keep source text
plain. -/
def apos : Char := Char.ofNat 39

/-- The backtick character, spelled by code point. -/
def btick : Char := Char.ofNat 96

/-- The double-quote character, spelled by code point. -/
def dquote : Char := Char.ofNat 34

/-- The per-character escape table of `execute_text`: space becomes the
`%s` placeholder, each of `& " apostrophe backtick $ ( )` gets a backslash
prefix, anything else is sent unchanged. -/
def escapeChar (c : Char) : String :=
  if c = ' ' then "%s"
  else if c = '&' then "\\&"
  else if c = dquote then String.mk ['\\', dquote]
  else if c = apos then String.mk ['\\', apos]
  else if c = btick then String.mk ['\\', btick]
  else if c = '$' then "\\$"
  else if c = '(' then "\\("
  else if c = ')' then "\\)"
  else String.singleton c

/-- The device-I/O oracle for screen_macros.py text entry: `send w s` is
`execute_adb_command(device, ['shell', 'input', 'text', s])` run in world
`w` (returning the new world and the boolean outcome), and `sleep w q` is
`time.sleep(q)` — real time is modelled only as a world effect. -/
structure TextEnv (W : Type) where
  send : W → String → W × Bool
  sleep : W → ℚ → W

/-- The character loop of `execute_text`: send the escaped character, stop
with `False` on the first failed send, otherwise sleep `delay_ms / 1000`
seconds (when `delay_ms > 0`) and continue. -/
def sendChars {W : Type} (io : TextEnv W) (delay_ms : ℚ) : W → List Char → W × Bool
  | w, [] => (w, true)
  | w, c :: cs =>
    let r := io.send w (escapeChar c)
    if r.2 then
      sendChars io delay_ms (if 0 < delay_ms then io.sleep r.1 (delay_ms / 1000) else r.1) cs
    else (r.1, false)

/-- `execute_text(device_address, text, delay_ms)`; the device address
lives inside the oracle world. -/
def execute_text {W : Type} (io : TextEnv W) (w : W) (text : String)
    (delay_ms : ℚ) : W × Bool :=
  sendChars io delay_ms w text.data

/-- The attempt loop of `execute_text_with_retry`, with the number of
remaining attempts as fuel (`max_retries + 1` at entry): run the whole
string, return `True` on success, otherwise sleep 0.5 s and start over if
an attempt remains. -/
def retryAttempts {W : Type} (io : TextEnv W) (text : String) (delay_ms : ℚ) :
    Nat → W → W × Bool
  | 0, w => (w, false)
  | n + 1, w =>
    let r := execute_text io w text delay_ms
    if r.2 then (r.1, true)
    else
      match n with
      | 0 => (r.1, false)
      | m + 1 => retryAttempts io text delay_ms (m + 1) (io.sleep r.1 (1/2))

/-- `execute_text_with_retry(device_address, text, delay_ms, max_retries)`. -/
def execute_text_with_retry {W : Type} (io : TextEnv W) (w : W) (text : String)
    (delay_ms : ℚ) (max_retries : Nat) : W × Bool :=
  retryAttempts io text delay_ms (max_retries + 1) w

/-- Modelled from the spec: the stripping half of the text round-trip —
"mapping %s back to space and dropping the backslashes" applied to one
emitted per-character command. -/
def unescapeTok (s : String) : String :=
  if s = "%s" then " " else String.mk (s.data.filter (fun c => c ≠ '\\'))

/-- An action dictionary as `execute_macro` consumes it: only the `type`
key (possibly absent) is inspected by the loop itself; the remaining
payload is opaque to it and abstracted into a tag consumed by the step
executor. -/
structure Action where
  kind : Option String
  payload : Nat
deriving DecidableEq, Repr

/-- `action.get('type', 'unknown')`. -/
def actionType (a : Action) : String := a.kind.getD "unknown"

/-- The three ways a call to `execute_action` can end: a `True` return, a
clean `False` return, or an exception carrying a message. -/
inductive StepOutcome where
  | ok : StepOutcome
  | failed : StepOutcome
  | raised : String → StepOutcome
deriving DecidableEq, Repr

/-- Whether the step returned `True`. -/
def StepOutcome.isOk : StepOutcome → Bool
  | .ok => true
  | _ => false

/-- The `status` string logged for an outcome. -/
def statusOf : StepOutcome → String
  | .ok => "success"
  | .failed => "failed"
  | .raised _ => "error"

/-- The `error` key of the log entry: present only for an exception. -/
def logErrOf : StepOutcome → Option String
  | .raised e => some e
  | _ => none

/-- The `error` string recorded in `failed_actions`: the fixed text
`Execution failed` for a clean `False`, `str(e)` for an exception. -/
def failErrOf : StepOutcome → String
  | .failed => "Execution failed"
  | .raised e => e
  | .ok => ""

/-- An entry of `execution_log`. -/
structure LogEntry where
  step : Nat
  action : String
  status : String
  error : Option String := none
deriving DecidableEq, Repr

/-- An entry of `failed_actions`. -/
structure FailEntry where
  step : Nat
  action : String
  error : String
deriving DecidableEq, Repr

/-- The results dictionary of `execute_macro`. -/
structure MacroResult where
  success : Bool
  total_actions : Nat
  executed_actions : Nat
  failed_actions : List FailEntry
  execution_log : List LogEntry
deriving DecidableEq, Repr

/-- The log entry written for step `i` (0-based) with action `a` ending in
outcome `o`. -/
def logEntryOf (i : Nat) (a : Action) (o : StepOutcome) : LogEntry :=
  { step := i + 1, action := actionType a, status := statusOf o, error := logErrOf o }

/-- The bookkeeping of one iteration of the `execute_macro` loop on the
results accumulator. -/
def macroStep (res : MacroResult) (i : Nat) (a : Action) (o : StepOutcome) : MacroResult :=
  match o with
  | .ok =>
    { res with executed_actions := res.executed_actions + 1
               execution_log := res.execution_log ++ [logEntryOf i a o] }
  | .failed =>
    { res with success := false
               failed_actions := res.failed_actions ++ [⟨i + 1, actionType a, "Execution failed"⟩]
               execution_log := res.execution_log ++ [logEntryOf i a o] }
  | .raised e =>
    { res with success := false
               failed_actions := res.failed_actions ++ [⟨i + 1, actionType a, e⟩]
               execution_log := res.execution_log ++ [logEntryOf i a o] }

/-- The `for i, action in enumerate(actions)` loop, with the abstract step
executor `exec` (the call `execute_action(device_address, action,
device_settings)` together with the try/except around it) threaded through
an oracle world. -/
def macroLoop {W : Type} (ex : W → Action → W × StepOutcome) :
    W → Nat → List Action → MacroResult → MacroResult
  | _, _, [], res => res
  | w, i, a :: rest, res =>
    let r := ex w a
    macroLoop ex r.1 (i + 1) rest (macroStep res i a r.2)

/-- `execute_macro(device_address, actions)`.  The single
`get_device_settings` call is part of the oracle world. -/
def execute_macro {W : Type} (ex : W → Action → W × StepOutcome) (w : W)
    (actions : List Action) : MacroResult :=
  macroLoop ex w 0 actions
    { success := true, total_actions := actions.length, executed_actions := 0,
      failed_actions := [], execution_log := [] }

/-- The trace of executor invocations and their outcomes that
`execute_macro` performs: one call per input action, in order, regardless
of earlier outcomes. -/
def stepPairs {W : Type} (ex : W → Action → W × StepOutcome) :
    W → List Action → List (Action × StepOutcome)
  | _, [] => []
  | w, a :: rest =>
    let r := ex w a
    (a, r.2) :: stepPairs ex r.1 rest

/-- The `failed_actions` entries produced by a run whose step trace is
`ps`, with `i` the 0-based index of the first trace element. -/
def failsFrom (i : Nat) : List (Action × StepOutcome) → List FailEntry
  | [] => []
  | p :: ps =>
    if p.2.isOk then failsFrom (i + 1) ps
    else ⟨i + 1, actionType p.1, failErrOf p.2⟩ :: failsFrom (i + 1) ps

/-- The `execution_log` entries produced by a run whose step trace is `ps`,
with `i` the 0-based index of the first trace element. -/
def logsFrom (i : Nat) : List (Action × StepOutcome) → List LogEntry
  | [] => []
  | p :: ps => logEntryOf i p.1 p.2 :: logsFrom (i + 1) ps

/-- How many steps of the trace returned `True`. -/
def okCount (ps : List (Action × StepOutcome)) : Nat :=
  ps.countP (fun p => p.2.isOk)

/- Concrete oracles and data used by the witnesses and counterexamples. -/

/-- A 100 x 100 screenshot. -/
def imgShot : Img := ⟨100, 100, 0⟩

/-- A 10 x 10 template image, tag 1. -/
def imgA : Img := ⟨10, 10, 1⟩

/-- A 10 x 10 template image, tag 2. -/
def imgB : Img := ⟨10, 10, 2⟩

/-- A 10 x 10 template image, tag 3. -/
def imgC : Img := ⟨10, 10, 3⟩

/-- A concrete OpenCV oracle: path `shot` is the screenshot, paths `A`,
`B`, `C` decode to the three template images (any other path, e.g. `bad`,
is unreadable), and the correlation maximum depends only on the template
tag: 0.75 for `A`, 0.95 for `B`, 0.69 for `C`. -/
def cvW : CV :=
  { imread := fun p =>
      if p = "shot" then some imgShot
      else if p = "A" then some imgA
      else if p = "B" then some imgB
      else if p = "C" then some imgC
      else none
    resize := fun t nw nh => ⟨nh, nw, t.pix⟩
    tmMax := fun _ t =>
      (if t.pix = 1 then mkRat 3 4 else if t.pix = 2 then mkRat 19 20 else if t.pix = 3 then mkRat 69 100 else 0,
       0, 0) }

/-- Template `A`: priority 10, threshold 0.7. -/
def tmplA : Template := ⟨1, "A", "A", mkRat 7 10, 10⟩

/-- Template `B`: priority 5, threshold 0.7. -/
def tmplB : Template := ⟨2, "B", "B", mkRat 7 10, 5⟩

/-- Template `C`: priority 1, threshold 0.7 — it scores 0.69, below its
threshold. -/
def tmplC : Template := ⟨3, "C", "C", mkRat 7 10, 1⟩

/-- A template whose reference image fails to load. -/
def tmplBad : Template := ⟨4, "Bad", "bad", mkRat 7 10, 20⟩

/-- An OpenCV oracle whose correlation maximum is -0.5 everywhere (a
legitimate TM_CCOEFF_NORMED value, e.g. for anti-correlated images). -/
def cvNeg : CV :=
  { imread := fun p =>
      if p = "s" then some imgShot else if p = "t" then some imgA else none
    resize := fun t nw nh => ⟨nh, nw, t.pix⟩
    tmMax := fun _ _ => (mkRat (-1) 2, 0, 0) }

/-- A step executor over a step-counter world that fails the second step
(0-based step 1) and succeeds elsewhere. -/
def execW : Nat → Action → Nat × StepOutcome :=
  fun n _ => (n + 1, if n = 1 then StepOutcome.failed else StepOutcome.ok)

/-- A tap action. -/
def act1 : Action := ⟨some "tap", 0⟩

/-- A text action. -/
def act2 : Action := ⟨some "text", 1⟩

/-- A wait action. -/
def act3 : Action := ⟨some "wait", 2⟩

/-- The three-action macro of the acceptance test. -/
def acts3 : List Action := [act1, act2, act3]

/-- A device-I/O oracle that records every issued input-text command and
always reports success; sleeps leave no record. -/
def recEnv : TextEnv (List String) :=
  { send := fun log s => (log ++ [s], true), sleep := fun log _ => log }

/-- A device-I/O oracle whose sends always fail. -/
def failEnv : TextEnv Unit :=
  { send := fun _ _ => ((), false), sleep := fun _ _ => () }

/-- A device-I/O oracle that records every send payload and every sleep
and whose sends always fail. -/
def traceEnv : TextEnv (List String) :=
  { send := fun log s => (log ++ [s], false), sleep := fun log _ => log ++ ["sleep"] }

/-- The text of the escaping acceptance test, with its apostrophe spelled
by code point. -/
def sampleText : String := "O" ++ String.singleton apos ++ "Brien & Co. (Ltd)"

/- Lemmas about the candidate ordering and the stable descending sort. -/

theorem candGE_refl (c : Candidate) : candGE c c :=
  Or.inr ⟨rfl, le_refl _⟩

theorem candGE_trans {a b c : Candidate} (hab : candGE a b) (hbc : candGE b c) :
    candGE a c := by
  rcases hab with h1 | ⟨h1, h1c⟩ <;> rcases hbc with h2 | ⟨h2, h2c⟩
  · exact Or.inl (lt_trans h2 h1)
  · exact Or.inl (lt_of_le_of_lt (le_of_eq h2) h1)
  · exact Or.inl (lt_of_lt_of_le h2 (le_of_eq h1))
  · exact Or.inr ⟨h2.trans h1, h2c.trans h1c⟩

theorem candGE_total (a b : Candidate) : candGE a b ∨ candGE b a := by
  rcases lt_trichotomy a.priority b.priority with h | h | h
  · exact Or.inr (Or.inl h)
  · rcases le_total b.confidence a.confidence with hc | hc
    · exact Or.inl (Or.inr ⟨h.symm, hc⟩)
    · exact Or.inr (Or.inr ⟨h, hc⟩)
  · exact Or.inl (Or.inl h)

theorem mem_insertByKey {x c : Candidate} : ∀ {l : List Candidate},
    x ∈ insertByKey c l ↔ x = c ∨ x ∈ l
  | [] => by simp [insertByKey]
  | d :: ds => by
    by_cases h : candGE c d
    · simp [insertByKey, h, List.mem_cons]
    · simp only [insertByKey, if_neg h, List.mem_cons, mem_insertByKey (l := ds)]
      tauto

theorem mem_sortMatches {x : Candidate} : ∀ {l : List Candidate},
    x ∈ sortMatches l ↔ x ∈ l
  | [] => Iff.rfl
  | c :: cs => by
    simp only [sortMatches, mem_insertByKey, List.mem_cons, mem_sortMatches (l := cs)]

theorem pairwise_insertByKey {c : Candidate} : ∀ {l : List Candidate},
    l.Pairwise candGE → (insertByKey c l).Pairwise candGE
  | [], _ => by simp [insertByKey]
  | d :: ds, hp => by
    rcases List.pairwise_cons.mp hp with ⟨hd, hds⟩
    by_cases h : candGE c d
    · rw [insertByKey, if_pos h]
      refine List.pairwise_cons.mpr ⟨?_, hp⟩
      intro x hx
      rcases List.mem_cons.mp hx with rfl | hx
      · exact h
      · exact candGE_trans h (hd x hx)
    · rw [insertByKey, if_neg h]
      refine List.pairwise_cons.mpr ⟨?_, pairwise_insertByKey hds⟩
      intro x hx
      rcases mem_insertByKey.mp hx with rfl | hx
      · exact (candGE_total x d).resolve_left h
      · exact hd x hx

theorem pairwise_sortMatches : ∀ (l : List Candidate),
    (sortMatches l).Pairwise candGE
  | [] => List.Pairwise.nil
  | c :: cs => pairwise_insertByKey (c := c) (pairwise_sortMatches cs)

theorem insertByKey_ne_nil (c : Candidate) : ∀ (l : List Candidate),
    insertByKey c l ≠ []
  | [] => by simp [insertByKey]
  | d :: ds => by
    by_cases h : candGE c d <;> simp [insertByKey, h]

theorem sortMatches_ne_nil {l : List Candidate} (h : l ≠ []) :
    sortMatches l ≠ [] := by
  cases l with
  | nil => exact absurd rfl h
  | cons c cs => exact insertByKey_ne_nil c (sortMatches cs)

theorem sortMatches_head_max {l : List Candidate} {b : Candidate}
    {bs : List Candidate} (hsort : sortMatches l = b :: bs) :
    ∀ c ∈ l, candGE b c := by
  intro c hc
  have hcs : c ∈ sortMatches l := mem_sortMatches.mpr hc
  rw [hsort] at hcs
  rcases List.mem_cons.mp hcs with rfl | hcbs
  · exact candGE_refl c
  · have hp := pairwise_sortMatches l
    rw [hsort] at hp
    exact (List.pairwise_cons.mp hp).1 c hcbs

/- Lemmas about the multi-scale matching loop. -/

theorem msLoop_matched {cv : CV} {shot templ : Img} {thr : ℚ} :
    ∀ (ss : List ℚ) (best : Option MatchResult) (bc : ℚ),
      (∀ r0, best = some r0 → r0.matched = decide (thr ≤ r0.confidence)) →
      ∀ r, msLoop cv shot templ thr ss best bc = some r →
        r.matched = decide (thr ≤ r.confidence)
  | [], best, bc, hinv, r, hr => hinv r hr
  | s :: rest, best, bc, hinv, r, hr => by
    rw [msLoop] at hr
    by_cases hsk : scaleSkipped shot templ s = true
    · rw [if_pos hsk] at hr
      exact msLoop_matched rest best bc hinv r hr
    · rw [if_neg hsk] at hr
      by_cases hz : scaledH templ s = 0 ∨ scaledW templ s = 0
      · rw [if_pos hz] at hr
        exact absurd hr (by simp)
      · rw [if_neg hz] at hr
        by_cases hlt : bc < confAt cv shot templ s
        · rw [if_pos hlt] at hr
          refine msLoop_matched rest _ _ ?_ r hr
          intro r0 hr0
          cases hr0.symm.trans rfl
          injection hr0 with hr0
          rw [← hr0]
          rfl
        · rw [if_neg hlt] at hr
          exact msLoop_matched rest best bc hinv r hr

theorem match_template_multiscale_matched {cv : CV} {sp tp : String} {thr : ℚ}
    {r : MatchResult} (h : match_template_multiscale cv sp tp thr = some r) :
    r.matched = decide (thr ≤ r.confidence) := by
  rw [match_template_multiscale] at h
  cases hs : cv.imread sp with
  | none => rw [hs] at h; cases h
  | some shot =>
    cases ht : cv.imread tp with
    | none => rw [hs, ht] at h; cases h
    | some templ =>
      rw [hs, ht] at h
      exact msLoop_matched defaultScales none 0 (fun r0 h0 => by cases h0) r h

theorem msLoop_stop {cv : CV} {shot templ : Img} {thr : ℚ} :
    ∀ (ss : List ℚ) (best : Option MatchResult) (bc : ℚ),
      (∀ s ∈ ss, scaleSkipped shot templ s = false →
        (scaledH templ s ≠ 0 ∧ scaledW templ s ≠ 0) ∧ confAt cv shot templ s ≤ bc) →
      msLoop cv shot templ thr ss best bc = best
  | [], best, bc, _ => rfl
  | s :: rest, best, bc, h => by
    rw [msLoop]
    by_cases hsk : scaleSkipped shot templ s = true
    · rw [if_pos hsk]
      exact msLoop_stop rest best bc (fun s' hs' => h s' (List.mem_cons_of_mem s hs'))
    · have hsk' : scaleSkipped shot templ s = false := by
        cases hb : scaleSkipped shot templ s
        · rfl
        · exact absurd hb hsk
      obtain ⟨⟨hz1, hz2⟩, hle⟩ := h s (List.mem_cons_self s rest) hsk'
      rw [if_neg hsk, if_neg (by tauto), if_neg (not_lt.mpr hle)]
      exact msLoop_stop rest best bc (fun s' hs' => h s' (List.mem_cons_of_mem s hs'))

theorem msLoop_up {cv : CV} {shot templ : Img} {thr : ℚ} :
    ∀ (ss : List ℚ) (best : Option MatchResult) (bc : ℚ),
      (∀ s ∈ ss, scaleSkipped shot templ s = false →
        scaledH templ s ≠ 0 ∧ scaledW templ s ≠ 0) →
      (∃ s ∈ ss, scaleSkipped shot templ s = false ∧ bc < confAt cv shot templ s) →
      ∃ sr ∈ ss, scaleSkipped shot templ sr = false ∧
        msLoop cv shot templ thr ss best bc = some (msAcc cv shot templ thr sr) ∧
        (∀ s ∈ ss, scaleSkipped shot templ s = false →
          confAt cv shot templ s ≤ confAt cv shot templ sr) ∧
        bc ≤ confAt cv shot templ sr
  | [], best, bc, _, hex => by
    rcases hex with ⟨s, hs, _⟩
    exact absurd hs (List.not_mem_nil s)
  | s :: rest, best, bc, hnz, hex => by
    rw [msLoop]
    by_cases hsk : scaleSkipped shot templ s = true
    · rw [if_pos hsk]
      have hex' : ∃ s' ∈ rest, scaleSkipped shot templ s' = false ∧
          bc < confAt cv shot templ s' := by
        rcases hex with ⟨s0, hs0, hsk0, hlt0⟩
        rcases List.mem_cons.mp hs0 with rfl | hs0'
        · rw [hsk] at hsk0; cases hsk0
        · exact ⟨s0, hs0', hsk0, hlt0⟩
      obtain ⟨sr, hmem, hskr, heq, hub, hbc⟩ :=
        msLoop_up rest best bc (fun s' hs' => hnz s' (List.mem_cons_of_mem s hs')) hex'
      refine ⟨sr, List.mem_cons_of_mem s hmem, hskr, heq, ?_, hbc⟩
      intro s' hs' hsks'
      rcases List.mem_cons.mp hs' with rfl | hs''
      · rw [hsk] at hsks'; cases hsks'
      · exact hub s' hs'' hsks'
    · have hsk' : scaleSkipped shot templ s = false := by
        cases hb : scaleSkipped shot templ s
        · rfl
        · exact absurd hb hsk
      obtain ⟨hz1, hz2⟩ := hnz s (List.mem_cons_self s rest) hsk'
      rw [if_neg hsk, if_neg (by tauto)]
      by_cases hlt : bc < confAt cv shot templ s
      · rw [if_pos hlt]
        by_cases hrest : ∃ s' ∈ rest, scaleSkipped shot templ s' = false ∧
            confAt cv shot templ s < confAt cv shot templ s'
        · obtain ⟨sr, hmem, hskr, heq, hub, hbc⟩ :=
            msLoop_up rest (some (msAcc cv shot templ thr s)) (confAt cv shot templ s)
              (fun s' hs' => hnz s' (List.mem_cons_of_mem s hs')) hrest
          refine ⟨sr, List.mem_cons_of_mem s hmem, hskr, heq, ?_, le_of_lt hlt |>.trans hbc⟩
          intro s' hs' hsks'
          rcases List.mem_cons.mp hs' with rfl | hs''
          · exact hbc
          · exact hub s' hs'' hsks'
        · push_neg at hrest
          have hstop : msLoop cv shot templ thr rest (some (msAcc cv shot templ thr s))
              (confAt cv shot templ s) = some (msAcc cv shot templ thr s) := by
            refine msLoop_stop rest _ _ ?_
            intro s' hs' hsks'
            exact ⟨hnz s' (List.mem_cons_of_mem s hs') hsks', hrest s' hs' hsks'⟩
          refine ⟨s, List.mem_cons_self s rest, hsk', hstop, ?_, le_of_lt hlt⟩
          intro s' hs' hsks'
          rcases List.mem_cons.mp hs' with rfl | hs''
          · exact le_refl _
          · exact hrest s' hs'' hsks'
      · rw [if_neg hlt]
        have hex' : ∃ s' ∈ rest, scaleSkipped shot templ s' = false ∧
            bc < confAt cv shot templ s' := by
          rcases hex with ⟨s0, hs0, hsk0, hlt0⟩
          rcases List.mem_cons.mp hs0 with rfl | hs0'
          · exact absurd hlt0 hlt
          · exact ⟨s0, hs0', hsk0, hlt0⟩
        obtain ⟨sr, hmem, hskr, heq, hub, hbc⟩ :=
          msLoop_up rest best bc (fun s' hs' => hnz s' (List.mem_cons_of_mem s hs')) hex'
        refine ⟨sr, List.mem_cons_of_mem s hmem, hskr, heq, ?_, hbc⟩
        intro s' hs' hsks'
        rcases List.mem_cons.mp hs' with rfl | hs''
        · exact le_trans (not_lt.mp hlt) hbc
        · exact hub s' hs'' hsks'

/- Dimension positivity for the default scales. -/

theorem scaled_dim_pos {n : Nat} (hn : 2 ≤ n) {s : ℚ} (hs : mkRat 4 5 ≤ s) :
    (((n : ℚ) * s).floor).toNat ≠ 0 := by
  have hs' : (4 : ℚ) / 5 ≤ s := by
    rw [Rat.mkRat_eq_div] at hs
    exact_mod_cast hs
  have hn' : (2 : ℚ) ≤ (n : ℚ) := by exact_mod_cast hn
  have h1 : (1 : ℚ) ≤ (n : ℚ) * s := by nlinarith
  have h2 : (1 : ℤ) ≤ ((n : ℚ) * s).floor := Rat.le_floor.mpr (by exact_mod_cast h1)
  omega

theorem defaultScales_lb {s : ℚ} (hs : s ∈ defaultScales) : mkRat 4 5 ≤ s := by
  have hs' : s = mkRat 8 10 ∨ s = mkRat 9 10 ∨ s = 1 ∨ s = mkRat 11 10 ∨ s = mkRat 12 10 := by
    simpa [defaultScales] using hs
  rcases hs' with rfl | rfl | rfl | rfl | rfl <;> norm_num [Rat.mkRat_eq_div]

theorem defaultScales_dims_nz {templ : Img} (hh : 2 ≤ templ.h) (hw : 2 ≤ templ.w) :
    ∀ s ∈ defaultScales, scaledH templ s ≠ 0 ∧ scaledW templ s ≠ 0 := by
  intro s hs
  exact ⟨scaled_dim_pos hh (defaultScales_lb hs), scaled_dim_pos hw (defaultScales_lb hs)⟩

/- Lemmas about candidate construction. -/

theorem evalTemplate_none_of_low {cv : CV} {sp : String} {thr : Option ℚ}
    {t : Template}
    (h : ∀ r, match_template_multiscale cv sp t.path (thr.getD t.threshold) = some r →
      r.confidence < thr.getD t.threshold) :
    evalTemplate cv sp thr true t = none := by
  rw [evalTemplate]
  cases hm : match_template_multiscale cv sp t.path (thr.getD t.threshold) with
  | none => simp [hm]
  | some r =>
    have hmt := match_template_multiscale_matched hm
    have hlt := h r hm
    simp [hm, hmt, not_le.mpr hlt]

theorem filterMap_drop {f : Template → Option Candidate} {t : Template}
    (hft : f t = none) :
    ∀ l : List Template,
      l.filterMap f = (l.filter (fun u => decide (u ≠ t))).filterMap f := by
  intro l
  induction l with
  | nil => rfl
  | cons u us ih =>
    by_cases hu : u = t
    · subst hu
      simp [List.filterMap_cons, List.filter_cons, hft, ih]
    · simp [List.filterMap_cons, List.filter_cons, hu, ih]

theorem match_template_multiscale_imread_none {cv : CV} {sp tp : String}
    {thr : ℚ} (h : cv.imread tp = none) :
    match_template_multiscale cv sp tp thr = none := by
  rw [match_template_multiscale]
  cases hs : cv.imread sp <;> simp [h]

theorem match_template_imread_none {cv : CV} {sp tp : String} {thr : ℚ}
    (h : cv.imread tp = none) : match_template cv sp tp thr = none := by
  rw [match_template]
  cases hs : cv.imread sp <;> simp [h]

theorem evalTemplate_none_of_load_failure {cv : CV} {sp : String}
    {thr : Option ℚ} {ms : Bool} {t : Template} (h : cv.imread t.path = none) :
    evalTemplate cv sp thr ms t = none := by
  rw [evalTemplate]
  cases ms
  · simp [match_template_imread_none h]
  · simp [match_template_multiscale_imread_none h]

/- Claim theorems about the detector. -/

/-- Claim C8: an empty template list makes `detect_current_screen` return
the structured `NoTemplatesAvailable` failure (`success = false`, error
`No templates available`) rather than raising. -/
theorem detect_empty_store (cv : CV) (sp : String) (thr : Option ℚ) (ms : Bool) :
    detect_current_screen cv [] sp thr ms =
      { success := false, error := some "No templates available" } := rfl

/-- Claim C7: over a non-empty template list on which no template's
multi-scale match reaches its effective threshold (the caller override if
any, else the template's stored threshold), `detect_current_screen`
returns the legitimate no-match outcome: `success = true` and
`screen = none`, not a failure. -/
theorem detect_no_match_success (cv : CV) (templates : List Template)
    (sp : String) (thr : Option ℚ) (hne : templates ≠ [])
    (hlow : ∀ t ∈ templates, ∀ r,
      match_template_multiscale cv sp t.path (thr.getD t.threshold) = some r →
      r.confidence < thr.getD t.threshold) :
    detect_current_screen cv templates sp thr true =
      { success := true, screen := none,
        message := some "No matching screen detected" } := by
  have hcand : candidatesOf cv templates sp thr true = [] := by
    rw [candidatesOf, List.filterMap_eq_nil_iff]
    intro t ht
    exact evalTemplate_none_of_low (hlow t ht)
  have hie : templates.isEmpty = false := by
    cases templates
    · exact absurd rfl hne
    · rfl
  rw [detect_current_screen, hie, hcand]
  rfl

/-- Claim C7 witness: a single below-threshold template (score 0.69 against
threshold 0.70) yields the no-match success outcome. -/
theorem detect_no_match_success_witness :
    detect_current_screen cvW [tmplC] "shot" none true =
      { success := true, screen := none,
        message := some "No matching screen detected" } := by
  refine detect_no_match_success cvW [tmplC] "shot" none (by decide) ?_
  intro t ht r hr
  have ht' : t = tmplC := by simpa using ht
  subst ht'
  rw [show match_template_multiscale cvW "shot" tmplC.path
        ((none : Option ℚ).getD tmplC.threshold) =
        some ⟨mkRat 69 100, some ⟨0, 0, 8, 8⟩, false, mkRat 8 10⟩ from by decide] at hr
  cases hr
  decide

/-- Claim C1: whenever the candidate list is non-empty, the screen that
`detect_current_screen` reports belongs to the candidate list and is
maximal for the ordering (priority descending, then confidence
descending): every other candidate has lower priority, or equal priority
and no higher confidence. -/
theorem detect_selects_priority_then_confidence (cv : CV)
    (templates : List Template) (sp : String) (thr : Option ℚ)
    (hne : candidatesOf cv templates sp thr true ≠ []) :
    ∃ best,
      detect_current_screen cv templates sp thr true =
        { success := true, screen := some best.template_name,
          template_id := some best.template_id,
          confidence := some best.confidence, location := best.location,
          scale := some best.scale,
          all_matches := some (sortMatches (candidatesOf cv templates sp thr true)) } ∧
      best ∈ candidatesOf cv templates sp thr true ∧
      ∀ c ∈ candidatesOf cv templates sp thr true, candGE best c := by
  have htne : templates ≠ [] := by
    intro h
    subst h
    exact hne rfl
  have hie : templates.isEmpty = false := by
    cases templates
    · exact absurd rfl htne
    · rfl
  obtain ⟨b, bs, hsort⟩ :
      ∃ b bs, sortMatches (candidatesOf cv templates sp thr true) = b :: bs := by
    cases hs : sortMatches (candidatesOf cv templates sp thr true) with
    | nil => exact absurd hs (sortMatches_ne_nil hne)
    | cons b bs => exact ⟨b, bs, rfl⟩
  refine ⟨b, ?_, ?_, sortMatches_head_max hsort⟩
  · rw [detect_current_screen, hie, hsort]
    rfl
  · have hb : b ∈ sortMatches (candidatesOf cv templates sp thr true) := by
      rw [hsort]
      exact List.mem_cons_self b bs
    exact mem_sortMatches.mp hb

/-- Claim C1 witness: the acceptance-test configuration — template A with
priority 10 and confidence 0.75, template B with priority 5 and confidence
0.95, both above threshold 0.7 — where A must win. -/
theorem detect_selects_priority_then_confidence_witness :
    candidatesOf cvW [tmplA, tmplB] "shot" none true ≠ [] ∧
    (∃ best,
      detect_current_screen cvW [tmplA, tmplB] "shot" none true =
        { success := true, screen := some best.template_name,
          template_id := some best.template_id,
          confidence := some best.confidence, location := best.location,
          scale := some best.scale,
          all_matches := some (sortMatches (candidatesOf cvW [tmplA, tmplB] "shot" none true)) } ∧
      best ∈ candidatesOf cvW [tmplA, tmplB] "shot" none true ∧
      ∀ c ∈ candidatesOf cvW [tmplA, tmplB] "shot" none true, candGE best c) :=
  ⟨by decide,
   detect_selects_priority_then_confidence cvW [tmplA, tmplB] "shot" none (by decide)⟩

/-- Claim C3: a template whose multi-scale best confidence is strictly
below its effective threshold contributes nothing to the candidate list:
its per-template evaluation is `none`, and the candidate list equals the
one computed with that template removed. -/
theorem below_threshold_not_candidate (cv : CV) (templates : List Template)
    (sp : String) (thr : Option ℚ) (t : Template) (_ht : t ∈ templates)
    (r : MatchResult)
    (hm : match_template_multiscale cv sp t.path (thr.getD t.threshold) = some r)
    (hlt : r.confidence < thr.getD t.threshold) :
    evalTemplate cv sp thr true t = none ∧
    candidatesOf cv templates sp thr true =
      candidatesOf cv (templates.filter (fun u => decide (u ≠ t))) sp thr true := by
  have hnone : evalTemplate cv sp thr true t = none := by
    refine evalTemplate_none_of_low ?_
    intro r' hr'
    rw [hm] at hr'
    cases hr'
    exact hlt
  exact ⟨hnone, filterMap_drop hnone templates⟩

/-- Claim C3 witness: template C scores 0.69 against its stored threshold
0.70 while template A is a valid candidate; C contributes nothing. -/
theorem below_threshold_not_candidate_witness :
    evalTemplate cvW "shot" none true tmplC = none ∧
    candidatesOf cvW [tmplA, tmplC] "shot" none true =
      candidatesOf cvW ([tmplA, tmplC].filter (fun u => decide (u ≠ tmplC)))
        "shot" none true :=
  below_threshold_not_candidate cvW [tmplA, tmplC] "shot" none tmplC (by decide)
    ⟨mkRat 69 100, some ⟨0, 0, 8, 8⟩, false, mkRat 8 10⟩ (by decide) (by decide)

/-- Claim C9: a template whose reference image cannot be loaded is a
non-match for that template only: its evaluation is `none`, the candidate
list is the one computed without it, and the overall outcome is the one
the remaining templates produce (the no-match success outcome when no
other template exists). -/
theorem template_load_failure_skipped (cv : CV) (templates : List Template)
    (sp : String) (thr : Option ℚ) (ms : Bool) (t : Template)
    (ht : t ∈ templates) (hload : cv.imread t.path = none) :
    evalTemplate cv sp thr ms t = none ∧
    candidatesOf cv templates sp thr ms =
      candidatesOf cv (templates.filter (fun u => decide (u ≠ t))) sp thr ms ∧
    ((templates.filter (fun u => decide (u ≠ t)) = [] ∧
        detect_current_screen cv templates sp thr ms =
          { success := true, screen := none,
            message := some "No matching screen detected" }) ∨
      detect_current_screen cv templates sp thr ms =
        detect_current_screen cv (templates.filter (fun u => decide (u ≠ t)))
          sp thr ms) := by
  have hnone : evalTemplate cv sp thr ms t = none :=
    evalTemplate_none_of_load_failure hload
  have hdrop := filterMap_drop hnone templates
  have htne : templates ≠ [] := by
    intro h
    rw [h] at ht
    exact absurd ht (List.not_mem_nil t)
  have hie : templates.isEmpty = false := by
    cases templates
    · exact absurd rfl htne
    · rfl
  refine ⟨hnone, hdrop, ?_⟩
  by_cases hf : templates.filter (fun u => decide (u ≠ t)) = []
  · left
    refine ⟨hf, ?_⟩
    have hcand : candidatesOf cv templates sp thr ms = [] := by
      rw [candidatesOf, hdrop, hf]
      rfl
    rw [detect_current_screen, hie, hcand]
    rfl
  · right
    have hie' : (templates.filter (fun u => decide (u ≠ t))).isEmpty = false := by
      cases hfe : templates.filter (fun u => decide (u ≠ t))
      · exact absurd hfe hf
      · rfl
    rw [detect_current_screen, detect_current_screen, hie, hie']
    rw [show candidatesOf cv templates sp thr ms =
          candidatesOf cv (templates.filter (fun u => decide (u ≠ t))) sp thr ms
        from hdrop]

/-- Claim C9 witness: a store holding template A and an unreadable template
`Bad`; the bad template is skipped and detection proceeds on A alone. -/
theorem template_load_failure_skipped_witness :
    evalTemplate cvW "shot" none true tmplBad = none ∧
    candidatesOf cvW [tmplA, tmplBad] "shot" none true =
      candidatesOf cvW ([tmplA, tmplBad].filter (fun u => decide (u ≠ tmplBad)))
        "shot" none true ∧
    (([tmplA, tmplBad].filter (fun u => decide (u ≠ tmplBad)) = [] ∧
        detect_current_screen cvW [tmplA, tmplBad] "shot" none true =
          { success := true, screen := none,
            message := some "No matching screen detected" }) ∨
      detect_current_screen cvW [tmplA, tmplBad] "shot" none true =
        detect_current_screen cvW
          ([tmplA, tmplBad].filter (fun u => decide (u ≠ tmplBad))) "shot" none true) :=
  template_load_failure_skipped cvW [tmplA, tmplBad] "shot" none true tmplBad
    (by decide) (by decide)

/-- Claim C2 (amended): for readable images with the template at least
2 px in each dimension, when some non-skipped scale in
{0.8, 0.9, 1.0, 1.1, 1.2} has strictly positive confidence,
`match_template_multiscale` returns the match built at a non-skipped scale
whose confidence bounds every non-skipped scale's confidence — exactly the
scales whose truncated scaled dimensions exceed the screenshot's are
skipped, the screenshot is never resized, and the returned `matched` flag
is true iff that best confidence reaches the threshold.  (When every
non-skipped scale's confidence is ≤ 0 the function instead returns no
record at all; see the counterexample.) -/
theorem multiscale_best_scale (cv : CV) (sp tp : String) (thr : ℚ)
    (shot templ : Img) (hs : cv.imread sp = some shot)
    (ht : cv.imread tp = some templ) (hh : 2 ≤ templ.h) (hw : 2 ≤ templ.w)
    (hpos : ∃ s ∈ defaultScales, scaleSkipped shot templ s = false ∧
      0 < confAt cv shot templ s) :
    ∃ sr ∈ defaultScales, scaleSkipped shot templ sr = false ∧
      match_template_multiscale cv sp tp thr = some (msAcc cv shot templ thr sr) ∧
      (∀ s ∈ defaultScales, scaleSkipped shot templ s = false →
        confAt cv shot templ s ≤ confAt cv shot templ sr) ∧
      (msAcc cv shot templ thr sr).matched = decide (thr ≤ confAt cv shot templ sr) ∧
      (msAcc cv shot templ thr sr).scale = sr := by
  obtain ⟨sr, hmem, hskr, heq, hub, _⟩ :=
    @msLoop_up cv shot templ thr defaultScales none 0
      (fun s hsmem _ => defaultScales_dims_nz hh hw s hsmem) hpos
  refine ⟨sr, hmem, hskr, ?_, hub, rfl, rfl⟩
  rw [match_template_multiscale, hs, ht]
  exact heq

/-- Claim C2 witness: template A (10 x 10) against the 100 x 100
screenshot, confidence 0.75 at every scale; the match is returned at the
first scale with the maximal confidence and `matched = true` against
threshold 0.7. -/
theorem multiscale_best_scale_witness :
    ∃ sr ∈ defaultScales, scaleSkipped imgShot imgA sr = false ∧
      match_template_multiscale cvW "shot" "A" (mkRat 7 10) =
        some (msAcc cvW imgShot imgA (mkRat 7 10) sr) ∧
      (∀ s ∈ defaultScales, scaleSkipped imgShot imgA s = false →
        confAt cvW imgShot imgA s ≤ confAt cvW imgShot imgA sr) ∧
      (msAcc cvW imgShot imgA (mkRat 7 10) sr).matched =
        decide (mkRat 7 10 ≤ confAt cvW imgShot imgA sr) ∧
      (msAcc cvW imgShot imgA (mkRat 7 10) sr).scale = sr :=
  multiscale_best_scale cvW "shot" "A" (mkRat 7 10) imgShot imgA rfl rfl
    (by decide) (by decide) ⟨1, by decide, by decide, by decide⟩

/-- Claim C2 counterexample: with a correlation maximum of -0.5 (a value
TM_CCOEFF_NORMED can produce), scale 1.0 is not skipped and the best
confidence over the non-skipped scales is -0.5, yet
`match_template_multiscale` returns `None` instead of a match record with
`matched = false` — the claim fails when the best confidence is not
strictly positive, because the loop's running best starts at 0.0 and is
only replaced by a strictly greater value. -/
theorem multiscale_nonpositive_cex :
    match_template_multiscale cvNeg "s" "t" (mkRat 7 10) = none ∧
    cvNeg.imread "s" = some imgShot ∧
    cvNeg.imread "t" = some imgA ∧
    scaleSkipped imgShot imgA 1 = false ∧
    confAt cvNeg imgShot imgA 1 = mkRat (-1) 2 := by decide

/- Lemmas about the macro execution loop. -/

theorem StepOutcome.isOk_iff {o : StepOutcome} : o.isOk = true ↔ o = StepOutcome.ok := by
  cases o <;> simp [StepOutcome.isOk]

theorem macroLoop_eq {W : Type} (ex : W → Action → W × StepOutcome) :
    ∀ (as : List Action) (w : W) (i : Nat) (res : MacroResult),
      macroLoop ex w i as res =
        { success := res.success && (stepPairs ex w as).all (fun p => p.2.isOk)
          total_actions := res.total_actions
          executed_actions := res.executed_actions + okCount (stepPairs ex w as)
          failed_actions := res.failed_actions ++ failsFrom i (stepPairs ex w as)
          execution_log := res.execution_log ++ logsFrom i (stepPairs ex w as) } := by
  intro as
  induction as with
  | nil =>
    intro w i res
    simp [macroLoop, stepPairs, okCount, failsFrom, logsFrom]
  | cons a rest ih =>
    intro w i res
    rw [macroLoop, stepPairs]
    cases ho : (ex w a).2 with
    | ok =>
      rw [ih]
      simp [macroStep, okCount, failsFrom, logsFrom, StepOutcome.isOk,
        List.countP_cons, logEntryOf, Nat.add_assoc, Nat.add_comm 1]
    | failed =>
      rw [ih]
      simp [macroStep, okCount, failsFrom, logsFrom, StepOutcome.isOk,
        List.countP_cons, logEntryOf, failErrOf, List.append_assoc]
    | raised e =>
      rw [ih]
      simp [macroStep, okCount, failsFrom, logsFrom, StepOutcome.isOk,
        List.countP_cons, logEntryOf, failErrOf, List.append_assoc]

theorem execute_macro_eq {W : Type} (ex : W → Action → W × StepOutcome)
    (w : W) (as : List Action) :
    execute_macro ex w as =
      { success := (stepPairs ex w as).all (fun p => p.2.isOk)
        total_actions := as.length
        executed_actions := okCount (stepPairs ex w as)
        failed_actions := failsFrom 0 (stepPairs ex w as)
        execution_log := logsFrom 0 (stepPairs ex w as) } := by
  rw [ execute_macro, macroLoop_eq]
  simp

theorem stepPairs_map_fst {W : Type} (ex : W → Action → W × StepOutcome) :
    ∀ (as : List Action) (w : W), (stepPairs ex w as).map Prod.fst = as := by
  intro as
  induction as with
  | nil => intro w; rfl
  | cons a rest ih => intro w; simp [stepPairs, ih]

theorem stepPairs_length {W : Type} (ex : W → Action → W × StepOutcome)
    (as : List Action) (w : W) : (stepPairs ex w as).length = as.length := by
  have := congrArg List.length (stepPairs_map_fst ex as w)
  simpa using this

theorem logsFrom_length : ∀ (ps : List (Action × StepOutcome)) (k : Nat),
    (logsFrom k ps).length = ps.length := by
  intro ps
  induction ps with
  | nil => intro k; rfl
  | cons p ps ih => intro k; simp [logsFrom, ih]

theorem okCount_add_failsFrom_length :
    ∀ (ps : List (Action × StepOutcome)) (k : Nat),
      okCount ps + (failsFrom k ps).length = ps.length := by
  intro ps
  induction ps with
  | nil => intro k; rfl
  | cons p ps ih =>
    intro k
    have hih := ih (k + 1)
    by_cases h : p.2.isOk = true
    · simp [okCount, failsFrom, h, List.countP_cons] at hih ⊢
      omega
    · have hb : p.2.isOk = false := by
        cases hx : p.2.isOk
        · rfl
        · exact absurd hx h
      simp [okCount, failsFrom, hb, List.countP_cons] at hih ⊢
      omega

theorem logsFrom_get? : ∀ (ps : List (Action × StepOutcome)) (k j : Nat),
    (logsFrom k ps).get? j = (ps.get? j).map (fun p => logEntryOf (k + j) p.1 p.2) := by
  intro ps
  induction ps with
  | nil => intro k j; cases j <;> rfl
  | cons p ps ih =>
    intro k j
    cases j with
    | zero => rfl
    | succ j =>
      have := ih (k + 1) j
      simp only [logsFrom, List.get?_cons_succ, this, List.get?]
      have harith : k + 1 + j = k + (j + 1) := by omega
      rw [harith]

theorem failsFrom_mem : ∀ (ps : List (Action × StepOutcome)) (k j : Nat)
    (p : Action × StepOutcome), ps.get? j = some p → p.2.isOk = false →
    (⟨k + j + 1, actionType p.1, failErrOf p.2⟩ : FailEntry) ∈ failsFrom k ps := by
  intro ps
  induction ps with
  | nil => intro k j p hp; cases j <;> cases hp
  | cons q ps ih =>
    intro k j p hp hnok
    cases j with
    | zero =>
      cases hp
      simp [failsFrom, hnok]
    | succ j =>
      have hmem := ih (k + 1) j p hp hnok
      have harith : k + (j + 1) + 1 = k + 1 + j + 1 := by omega
      rw [harith]
      by_cases h : q.2.isOk = true
      · simpa [failsFrom, h] using hmem
      · have hb : q.2.isOk = false := by
          cases hx : q.2.isOk
          · rfl
          · exact absurd hx h
        simp [failsFrom, hb]
        right
        exact hmem

theorem all_ok_iff (ps : List (Action × StepOutcome)) :
    (ps.all (fun p => p.2.isOk) = true) ↔ ∀ p ∈ ps, p.2 = StepOutcome.ok := by
  rw [List.all_eq_true]
  constructor
  · intro h p hp
    exact StepOutcome.isOk_iff.mp (h p hp)
  · intro h p hp
    exact StepOutcome.isOk_iff.mpr (h p hp)

theorem failsFrom_eq_nil_iff : ∀ (ps : List (Action × StepOutcome)) (k : Nat),
    failsFrom k ps = [] ↔ ps.all (fun p => p.2.isOk) = true := by
  intro ps
  induction ps with
  | nil => intro k; simp [failsFrom]
  | cons p ps ih =>
    intro k
    by_cases h : p.2.isOk = true
    · simp [failsFrom, h, ih (k + 1)]
    · have hb : p.2.isOk = false := by
        cases hx : p.2.isOk
        · rfl
        · exact absurd hx h
      simp [failsFrom, hb]

theorem logsFrom_map_step : ∀ (ps : List (Action × StepOutcome)) (k : Nat),
    (logsFrom k ps).map LogEntry.step =
      (List.range ps.length).map (fun j => k + j + 1) := by
  intro ps
  induction ps with
  | nil => intro k; rfl
  | cons p ps ih =>
    intro k
    rw [logsFrom, List.map_cons, ih (k + 1), List.length_cons,
      List.range_succ_eq_map, List.map_cons, List.map_map]
    refine congrArg₂ List.cons rfl ?_
    refine List.map_congr_left ?_
    intro j _
    simp [Function.comp, Nat.succ_eq_add_one]
    omega

theorem logsFrom_map_action : ∀ (ps : List (Action × StepOutcome)) (k : Nat),
    (logsFrom k ps).map LogEntry.action = ps.map (fun p => actionType p.1) := by
  intro ps
  induction ps with
  | nil => intro k; rfl
  | cons p ps ih => intro k; simp [logsFrom, logEntryOf, ih (k + 1)]

/- Claim theorems about the macro engine. -/

/-- Claim C10: for every executor, initial world and action list, the
result of `execute_macro` satisfies the bookkeeping invariant:
`total_actions` is the input length, `executed_actions` plus the number of
`failed_actions` equals it, `execution_log` has exactly one entry per
action with step numbers 1..n in input order and the action kinds in input
order, and `success` is true iff `failed_actions` is empty. -/
theorem macro_result_invariants {W : Type} (ex : W → Action → W × StepOutcome)
    (w : W) (actions : List Action) :
    ( execute_macro ex w actions).total_actions = actions.length ∧
    ( execute_macro ex w actions).executed_actions +
      ( execute_macro ex w actions).failed_actions.length = actions.length ∧
    ( execute_macro ex w actions).execution_log.map LogEntry.step =
      (List.range actions.length).map (fun j => j + 1) ∧
    ( execute_macro ex w actions).execution_log.map LogEntry.action =
      actions.map actionType ∧
    (( execute_macro ex w actions).success = true ↔
      ( execute_macro ex w actions).failed_actions = []) := by
  rw [execute_macro_eq]
  refine ⟨rfl, ?_, ?_, ?_, ?_⟩
  · rw [← stepPairs_length ex actions w]
    exact okCount_add_failsFrom_length (stepPairs ex w actions) 0
  · rw [logsFrom_map_step, stepPairs_length ex actions w]
    refine List.map_congr_left ?_
    intro j _
    omega
  · rw [logsFrom_map_action]
    have := stepPairs_map_fst ex actions w
    calc (stepPairs ex w actions).map (fun p => actionType p.1)
        = ((stepPairs ex w actions).map Prod.fst).map actionType := by
          rw [List.map_map]; rfl
      _ = actions.map actionType := by rw [this]
  · constructor
    · intro h
      exact (failsFrom_eq_nil_iff (stepPairs ex w actions) 0).mpr h
    · intro h
      exact (failsFrom_eq_nil_iff (stepPairs ex w actions) 0).mp h

/-- Claim C4: `execute_macro` attempts every step: for any step `i` of the
executor trace, the log holds exactly its entry (status `success`,
`failed`, or `error` with the exception message), a clean `False` return
is recorded in `failed_actions` with the fixed error text, an exception is
recorded there with its message, and the overall `success` flag is true
iff every step of the trace returned `True`. -/
theorem macro_continue_on_failure {W : Type} (ex : W → Action → W × StepOutcome)
    (w : W) (actions : List Action) (i : Nat) (a : Action) (o : StepOutcome)
    (hstep : (stepPairs ex w actions).get? i = some (a, o)) :
    ( execute_macro ex w actions).execution_log.get? i = some (logEntryOf i a o) ∧
    (o = StepOutcome.failed →
      (⟨i + 1, actionType a, "Execution failed"⟩ : FailEntry) ∈
        ( execute_macro ex w actions).failed_actions) ∧
    (∀ e, o = StepOutcome.raised e →
      (⟨i + 1, actionType a, e⟩ : FailEntry) ∈
        ( execute_macro ex w actions).failed_actions) ∧
    (( execute_macro ex w actions).success = true ↔
      ∀ p ∈ stepPairs ex w actions, p.2 = StepOutcome.ok) := by
  rw [execute_macro_eq]
  refine ⟨?_, ?_, ?_, all_ok_iff (stepPairs ex w actions)⟩
  · rw [logsFrom_get?, hstep]
    simp
  · intro ho
    subst ho
    have := failsFrom_mem (stepPairs ex w actions) 0 i (a, StepOutcome.failed)
      hstep rfl
    simpa [failErrOf] using this
  · intro e ho
    subst ho
    have := failsFrom_mem (stepPairs ex w actions) 0 i (a, StepOutcome.raised e)
      hstep rfl
    simpa [failErrOf] using this

/-- Claim C4 witness: the acceptance-test macro — three actions where the
second fails cleanly — with the failing step recorded and attempted steps
continuing through step 3. -/
theorem macro_continue_on_failure_witness :
    (stepPairs execW 0 acts3).get? 1 = some (act2, StepOutcome.failed) ∧
    (( execute_macro execW 0 acts3).execution_log.get? 1 =
        some (logEntryOf 1 act2 StepOutcome.failed) ∧
      (StepOutcome.failed = StepOutcome.failed →
        (⟨2, actionType act2, "Execution failed"⟩ : FailEntry) ∈
          ( execute_macro execW 0 acts3).failed_actions) ∧
      (∀ e, StepOutcome.failed = StepOutcome.raised e →
        (⟨2, actionType act2, e⟩ : FailEntry) ∈
          ( execute_macro execW 0 acts3).failed_actions) ∧
      (( execute_macro execW 0 acts3).success = true ↔
        ∀ p ∈ stepPairs execW 0 acts3, p.2 = StepOutcome.ok)) :=
  ⟨by decide, macro_continue_on_failure execW 0 acts3 1 act2 StepOutcome.failed (by decide)⟩

/- Lemmas about text entry. -/

theorem sendChars_rec : ∀ (cs : List Char) (log : List String),
    sendChars recEnv 150 log cs = (log ++ cs.map escapeChar, true) := by
  intro cs
  induction cs with
  | nil => intro log; simp [sendChars]
  | cons c cs ih =>
    intro log
    have hstep : sendChars recEnv 150 log (c :: cs) =
        sendChars recEnv 150 (log ++ [escapeChar c]) cs := rfl
    rw [hstep, ih]
    simp

theorem unescape_escape {c : Char} (hc : c ≠ '\\') :
    unescapeTok (escapeChar c) = String.singleton c := by
  rw [escapeChar]
  by_cases h1 : c = ' '
  · subst h1; decide
  rw [if_neg h1]
  by_cases h2 : c = '&'
  · subst h2; decide
  rw [if_neg h2]
  by_cases h3 : c = dquote
  · subst h3; decide
  rw [if_neg h3]
  by_cases h4 : c = apos
  · subst h4; decide
  rw [if_neg h4]
  by_cases h5 : c = btick
  · subst h5; decide
  rw [if_neg h5]
  by_cases h6 : c = '$'
  · subst h6; decide
  rw [if_neg h6]
  by_cases h7 : c = '('
  · subst h7; decide
  rw [if_neg h7]
  by_cases h8 : c = ')'
  · subst h8; decide
  rw [if_neg h8, unescapeTok]
  rw [if_neg ?_]
  · apply String.ext
    simp [String.data_singleton, List.filter_cons, hc]
  · intro hEq
    have := congrArg String.data hEq
    simp [String.data_singleton] at this

theorem join_foldl_singletons : ∀ (l : List Char) (acc : String),
    (l.map String.singleton).foldl (fun r s => r ++ s) acc = acc ++ String.mk l := by
  intro l
  induction l with
  | nil =>
    intro acc
    apply String.ext
    simp [String.data_append]
  | cons c cs ih =>
    intro acc
    rw [List.map_cons, List.foldl_cons, ih]
    apply String.ext
    simp [String.data_append, String.data_singleton]

theorem join_singletons (l : List Char) :
    String.join (l.map String.singleton) = String.mk l := by
  rw [String.join, join_foldl_singletons]
  apply String.ext
  simp [String.data_append]

/- Claim theorems about text entry. -/

/-- Claim C5 (amended): for every input string containing no backslash
character, `execute_text` emits one input-text command per character in
order, each mapped through the fixed escape table (space to the `%s`
placeholder, a backslash prefix for the seven specials, anything else
unchanged), every send succeeding; and stripping the escaping from the
emitted commands (mapping `%s` back to space and dropping the
backslashes) reassembles exactly the original string.  (For a string
containing a backslash the emitted command is the bare backslash itself
and stripping loses it; see the counterexample.) -/
theorem text_escape_roundtrip (text : String) (hnb : '\\' ∉ text.data) :
    execute_text recEnv [] text 150 = (text.data.map escapeChar, true) ∧
    (text.data.map escapeChar).map unescapeTok = text.data.map String.singleton ∧
    String.join ((text.data.map escapeChar).map unescapeTok) = text := by
  have h2 : (text.data.map escapeChar).map unescapeTok =
      text.data.map String.singleton := by
    rw [List.map_map]
    refine List.map_congr_left ?_
    intro c hc
    exact unescape_escape (fun h => hnb (h ▸ hc))
  refine ⟨?_, h2, ?_⟩
  · rw [execute_text, sendChars_rec]
    simp
  · rw [h2, join_singletons]

/-- Claim C5 witness: the acceptance-test input `O'Brien & Co. (Ltd)`
(backslash-free): per-character commands with the table applied, and the
round-trip reassembles the original. -/
theorem text_escape_roundtrip_witness :
    '\\' ∉ sampleText.data ∧
    (execute_text recEnv [] sampleText 150 = (sampleText.data.map escapeChar, true) ∧
      (sampleText.data.map escapeChar).map unescapeTok =
        sampleText.data.map String.singleton ∧
      String.join ((sampleText.data.map escapeChar).map unescapeTok) = sampleText) :=
  ⟨by decide, text_escape_roundtrip sampleText (by decide)⟩

/-- Claim C5 counterexample: for the one-character input `backslash` the
emitted command is the bare backslash, and stripping the escaping from the
emitted sequence yields the empty string, not the original input — the
round-trip half of the claim fails on strings containing a backslash. -/
theorem text_roundtrip_cex :
    execute_text recEnv [] (String.singleton '\\') 150 =
      ([String.singleton '\\'], true) ∧
    String.join (((String.singleton '\\').data.map escapeChar).map unescapeTok) = "" ∧
    String.singleton '\\' ≠ "" := by decide

/- Lemmas about the retry loop. -/

theorem execute_text_failfirst {W : Type} {io : TextEnv W}
    (hfail : ∀ w s, (io.send w s).2 = false) (w : W) {text : String}
    {c : Char} {cs : List Char} (hdata : text.data = c :: cs) (delay_ms : ℚ) :
    execute_text io w text delay_ms = ((io.send w (escapeChar c)).1, false) := by
  rw [execute_text, hdata, sendChars]
  simp [hfail w (escapeChar c)]

/-- Claim C6 (amended): for every non-empty input string, if every
invocation of the character-send primitive fails, then
`execute_text_with_retry` with `max_retries = 2` makes exactly three
full-string attempts — each restarting from the first character, so
exactly three sends of the first character's escape occur — with a 0.5 s
sleep between consecutive attempts, and returns `False`; and whenever an
attempt succeeds the function returns `True` immediately with no further
attempt.  (On the empty string the character loop sends nothing and
reports success, so the function returns `True` after one attempt even
under an always-failing primitive; see the counterexample.) -/
theorem text_retry_exhaustion {W : Type} (io : TextEnv W)
    (hfail : ∀ w s, (io.send w s).2 = false) (w0 : W) (text : String)
    (c : Char) (cs : List Char) (hdata : text.data = c :: cs) (delay_ms : ℚ) :
    execute_text_with_retry io w0 text delay_ms 2 =
      ((io.send (io.sleep
          (io.send (io.sleep (io.send w0 (escapeChar c)).1 (1/2))
            (escapeChar c)).1 (1/2))
          (escapeChar c)).1, false) ∧
    (∀ (V : Type) (io2 : TextEnv V) (w2 : V) (t2 : String) (d2 : ℚ)
        (mr2 : Nat) (wf : V),
      execute_text io2 w2 t2 d2 = (wf, true) →
      execute_text_with_retry io2 w2 t2 d2 mr2 = (wf, true)) := by
  have hstep : ∀ (n : Nat) (w : W),
      retryAttempts io text delay_ms (n + 2) w =
        retryAttempts io text delay_ms (n + 1)
          (io.sleep (io.send w (escapeChar c)).1 (1/2)) := by
    intro n w
    rw [retryAttempts, execute_text_failfirst hfail w hdata]
    rfl
  have hlast : ∀ w : W,
      retryAttempts io text delay_ms 1 w = ((io.send w (escapeChar c)).1, false) := by
    intro w
    rw [retryAttempts, execute_text_failfirst hfail w hdata]
    rfl
  constructor
  · calc execute_text_with_retry io w0 text delay_ms 2
        = retryAttempts io text delay_ms (1 + 2) w0 := rfl
      _ = retryAttempts io text delay_ms (1 + 1)
            (io.sleep (io.send w0 (escapeChar c)).1 (1/2)) := hstep 1 w0
      _ = retryAttempts io text delay_ms (0 + 2)
            (io.sleep (io.send w0 (escapeChar c)).1 (1/2)) := rfl
      _ = retryAttempts io text delay_ms (0 + 1)
            (io.sleep (io.send (io.sleep (io.send w0 (escapeChar c)).1 (1/2))
              (escapeChar c)).1 (1/2)) := hstep 0 _
      _ = ((io.send (io.sleep
            (io.send (io.sleep (io.send w0 (escapeChar c)).1 (1/2))
              (escapeChar c)).1 (1/2))
            (escapeChar c)).1, false) := hlast _
  · intro V io2 w2 t2 d2 mr2 wf hok
    cases mr2 with
    | zero =>
      have hgoal : execute_text_with_retry io2 w2 t2 d2 0 =
          (let r := execute_text io2 w2 t2 d2
           if r.2 = true then (r.1, true) else (r.1, false)) := rfl
      rw [hgoal, hok]
      rfl
    | succ m =>
      have hgoal : execute_text_with_retry io2 w2 t2 d2 (m + 1) =
          (let r := execute_text io2 w2 t2 d2
           if r.2 = true then (r.1, true)
           else retryAttempts io2 t2 d2 (m + 1) (io2.sleep r.1 (1/2))) := rfl
      rw [hgoal, hok]
      rfl

/-- Claim C6 witness: a tracing always-failing oracle on input `ab`: the
recorded world shows exactly three sends of the escaped first character
with two interleaved sleeps, and the result is `False`. -/
theorem text_retry_exhaustion_witness :
    execute_text_with_retry traceEnv [] "ab" 150 2 =
      (["a", "sleep", "a", "sleep", "a"], false) := by
  have h := (text_retry_exhaustion traceEnv (fun w s => rfl) [] "ab" 'a' ['b']
    (by decide) 150).1
  exact h.trans (by decide)

/-- Claim C6 counterexample: under an always-failing send primitive the
empty input string makes `execute_text_with_retry` return `True` after a
single attempt with no sends at all — not three attempts ending in
`False` as the claim states for every input. -/
theorem text_retry_empty_cex :
    (failEnv.send () "x").2 = false ∧
    execute_text_with_retry failEnv () "" 150 2 = ((), true) := by decide

end SC
